import Mathlib

/-!
Verification of the subfinder-api orchestration layer (src/main.go).

The Go program is an HTTP façade over the subfinder enumeration engine.
This file shallowly embeds the pure logic of `main.go`: the domain
validator `isValidDomain`, the options translation performed by both
handlers, the line-oriented result parsing (including a model of Go's
`encoding/json.Unmarshal` restricted to the `SubfinderJSONOutput`
struct), and the control flow of `enumerateDomainHandler` and
`enumerateBatchHandler`.  The external enumeration engine and the
runner constructor are opaque in the source (library calls), so the
handlers are parameterised over them.  Wall-clock durations and HTTP
plumbing (routing, CORS, body decoding) are outside the embedded core.
-/

namespace SubfinderApi

/-! ## Data model (structs from src/main.go lines 21-60) -/

/-- Struct `APIOptions` (main.go lines 27-33): caller-supplied overrides.
Go `int` fields are modelled as `Int` (they may be negative). -/
structure APIOptions where
  threads : Int
  timeout : Int
  maxEnumerationTime : Int
  all : Bool
  onlyRecursive : Bool
  deriving Repr, DecidableEq

/-- The subset of `runner.Options` that the handlers set (main.go
lines 127-148): the engine configuration. -/
structure RunnerOptions where
  threads : Int
  timeout : Int
  maxEnumerationTime : Int
  json : Bool
  all : Bool
  onlyRecursive : Bool
  deriving Repr, DecidableEq

/-- Struct `SubdomainResult` (main.go lines 44-48). -/
structure SubdomainResult where
  subdomain : String
  sources : List String
  sourceCount : Nat
  deriving Repr, DecidableEq

/-- Struct `SubfinderJSONOutput` (main.go lines 56-60): the structured shape
of one engine output line. -/
structure SubfinderJSONOutput where
  host : String
  source : String
  input : String
  deriving Repr, DecidableEq

/-- Struct `ErrorResponse` (main.go lines 50-53): the error envelope sent by
`sendError`.  It has no results and no count field. -/
structure ErrorResponse where
  success : Bool
  error : String
  deriving Repr, DecidableEq

/-- The success fields of `EnumerateResponse` (main.go lines 35-42)
that the handlers populate: `Success`, `Results`, `Count`.  The
`Duration` string is wall-clock time and is not embedded; `Message`
and `Sources` are never set by the handlers. -/
structure EnumerateResponse where
  success : Bool
  results : List SubdomainResult
  count : Nat
  deriving Repr, DecidableEq

/-- Struct `EnumerateRequest` (main.go lines 21-25) after JSON decoding. -/
structure EnumerateRequest where
  domain : String
  domains : List String
  options : Option APIOptions
  deriving Repr, DecidableEq

/-- Outcome of a handler: either `sendError` with an HTTP status code
and an `ErrorResponse` body, or a 200 with an `EnumerateResponse`. -/
inductive HandlerResult where
  | err (status : Nat) (body : ErrorResponse)
  | ok (body : EnumerateResponse)
  deriving Repr, DecidableEq

/-! ## Go string helpers

Go's `len` is the byte length; `String.utf8ByteSize` matches it.
`strings.Contains`, `HasPrefix`, `HasSuffix` and `Split` on the ASCII
separators used here coincide with character-level operations because
ASCII bytes never occur inside a multi-byte UTF-8 sequence. -/

/-- Model of `strings.Contains s sub` as a character-list search. -/
def listContainsSub : List Char → List Char → Bool
  | [], sub => sub.isEmpty
  | l@(_ :: rest), sub => sub.isPrefixOf l || listContainsSub rest sub

/-- Whitespace per Go's `unicode.IsSpace` for the Latin-1 range, used
by `strings.TrimSpace`. -/
def isGoSpace (c : Char) : Bool :=
  c = ' ' || c = '\t' || c = '\n' || c = '\x0b' || c = '\x0c' || c = '\r' ||
  c = '\x85' || c = '\xa0'

/-- Model of `strings.TrimSpace`. -/
def goTrimSpace (s : String) : String :=
  String.mk (((s.data.dropWhile isGoSpace).reverse.dropWhile isGoSpace).reverse)

/-- Model of `strings.HasPrefix s p`. -/
def goStartsWith (s p : String) : Bool :=
  p.data.isPrefixOf s.data

/-- Model of `strings.HasSuffix s p`. -/
def goEndsWith (s p : String) : Bool :=
  p.data.isSuffixOf s.data

/-- Splitting on a single separator character, accumulating the
current field in reverse. -/
def goSplitAux (sep : Char) : List Char → List Char → List String
  | [], acc => [String.mk acc.reverse]
  | c :: rest, acc =>
    if c = sep then String.mk acc.reverse :: goSplitAux sep rest []
    else goSplitAux sep rest (c :: acc)

/-- Model of `strings.Split s (String.mk [sep])` for a one-character separator:
the empty string yields `[""]`, adjacent separators yield empty
fields. -/
def goSplit (s : String) (sep : Char) : List String :=
  goSplitAux sep s.data []

/-! ## Domain Validator (`isValidDomain`, main.go lines 324-345) -/

/-- Function `isValidDomain` (main.go lines 324-345), structured exactly as the
Go function: the length gate, the dot-shape gate, the label-count
gate, then the per-label length loop. -/
def isValidDomain (domain : String) : Bool :=
  if domain.utf8ByteSize = 0 || domain.utf8ByteSize > 253 then
    false
  else if listContainsSub domain.data ['.', '.'] || goStartsWith domain "." ||
      goEndsWith domain "." then
    false
  else
    let parts := goSplit domain '.'
    if parts.length < 2 then
      false
    else if parts.any (fun part => part.utf8ByteSize = 0 || part.utf8ByteSize > 63) then
      false
    else
      true

/-! ## Options Translator (main.go lines 126-148 and 229-251; the two
handlers contain the identical code) -/

/-- The default `runner.Options` built by both handlers (main.go lines
127-132 / 230-235): threads 10, timeout 30, max enumeration time 10,
JSON output forced on. -/
def defaultRunnerOptions : RunnerOptions :=
  { threads := 10, timeout := 30, maxEnumerationTime := 10,
    json := true, all := false, onlyRecursive := false }

/-- The override block (main.go lines 135-148): each numeric field
replaces the default only when strictly positive; the booleans are
copied unconditionally. -/
def applyOptions (base : RunnerOptions) (o : APIOptions) : RunnerOptions :=
  let opts := base
  let opts := if o.threads > 0 then { opts with threads := o.threads } else opts
  let opts := if o.timeout > 0 then { opts with timeout := o.timeout } else opts
  let opts := if o.maxEnumerationTime > 0 then
      { opts with maxEnumerationTime := o.maxEnumerationTime } else opts
  { opts with all := o.all, onlyRecursive := o.onlyRecursive }

/-- Options translation as the handlers perform it: defaults, then the
override block when the request carried an options object. -/
def translateOptions : Option APIOptions → RunnerOptions
  | none => defaultRunnerOptions
  | some o => applyOptions defaultRunnerOptions o

/-! ## Model of Go `encoding/json.Unmarshal` for `SubfinderJSONOutput`

`main.go` calls `json.Unmarshal([]byte(line), &subfinderResult)` (lines
172 and 278).  The library is external, so we model the fragment of its
behaviour relevant to this struct: parse the line as one JSON value
(with surrounding JSON whitespace, rejecting trailing data); a JSON
object yields the struct with each of the keys `host`, `source`,
`input` taken as its string value, the Go zero value `""` when the key
is absent or null, and an error when the key holds a non-string value;
JSON `null` yields the zero struct; any other top-level value, and any
syntactically invalid line, is an error.  Duplicate keys follow Go's
last-one-wins rule.  (Go also matches keys case-insensitively and
checks UTF-16 surrogate pairing in escapes; the engine's output never
exercises either, and no theorem below depends on them.) -/

inductive JsonValue where
  | null
  | bool (b : Bool)
  | num (raw : String)
  | str (s : String)
  | arr (elems : List JsonValue)
  | obj (fields : List (String × JsonValue))
  deriving Repr

/-- JSON inter-token whitespace (RFC 8259): space, tab, LF, CR. -/
def isJsonWs (c : Char) : Bool :=
  c = ' ' || c = '\t' || c = '\n' || c = '\r'

def skipWs (input : List Char) : List Char :=
  input.dropWhile isJsonWs

/-- Hexadecimal digit value, for string escapes. -/
def hexVal (c : Char) : Option Nat :=
  if '0' ≤ c ∧ c ≤ '9' then some (c.toNat - '0'.toNat)
  else if 'a' ≤ c ∧ c ≤ 'f' then some (c.toNat - 'a'.toNat + 10)
  else if 'A' ≤ c ∧ c ≤ 'F' then some (c.toNat - 'A'.toNat + 10)
  else none

/-- Body of a JSON string after the opening quote: returns the decoded
string and the input after the closing quote. -/
def parseStringBody : Nat → List Char → Option (String × List Char)
  | 0, _ => none
  | _, [] => none
  | fuel + 1, c :: rest =>
    if c = '"' then
      some ("", rest)
    else if c = '\\' then
      match rest with
      | [] => none
      | e :: rest2 =>
        let decoded : Option (Char × List Char) :=
          if e = '"' then some ('"', rest2)
          else if e = '\\' then some ('\\', rest2)
          else if e = '/' then some ('/', rest2)
          else if e = 'b' then some ('\x08', rest2)
          else if e = 'f' then some ('\x0c', rest2)
          else if e = 'n' then some ('\n', rest2)
          else if e = 'r' then some ('\r', rest2)
          else if e = 't' then some ('\t', rest2)
          else if e = 'u' then
            match rest2 with
            | h1 :: h2 :: h3 :: h4 :: rest3 =>
              match hexVal h1, hexVal h2, hexVal h3, hexVal h4 with
              | some a, some b, some c2, some d =>
                let code := ((a * 16 + b) * 16 + c2) * 16 + d
                if h : code.isValidChar then some (Char.ofNatAux code h, rest3)
                else some ('�', rest3)
              | _, _, _, _ => none
            | _ => none
          else none
        match decoded with
        | some (ch, r) =>
          match parseStringBody fuel r with
          | some (s, r2) => some (String.mk (ch :: s.data), r2)
          | none => none
        | none => none
    else if c.toNat < 32 then
      none
    else
      match parseStringBody fuel rest with
      | some (s, r2) => some (String.mk (c :: s.data), r2)
      | none => none

/-- Characters a JSON number token may contain. -/
def isNumChar (c : Char) : Bool :=
  c.isDigit || c = '-' || c = '+' || c = '.' || c = 'e' || c = 'E'

/-- A number token: the raw digits are kept, their numeric value is
irrelevant to the decoder model. -/
def parseNumber (input : List Char) : Option (JsonValue × List Char) :=
  let tok := input.takeWhile isNumChar
  if tok.isEmpty then none
  else some (JsonValue.num (String.mk tok), input.dropWhile isNumChar)

/-- Expect a literal suffix such as `rue` after `t`. -/
def expectLit (lit : List Char) (input : List Char) : Option (List Char) :=
  if lit.isPrefixOf input then some (input.drop lit.length) else none

mutual

/-- One JSON value, fuel-indexed recursive descent.  With fuel larger
than the input length the fuel never runs out. -/
def parseValue : Nat → List Char → Option (JsonValue × List Char)
  | 0, _ => none
  | Nat.succ fuel, input =>
    match skipWs input with
    | [] => none
    | c :: rest =>
      if c = '"' then
        match parseStringBody (fuel + 1) rest with
        | some (s, r) => some (JsonValue.str s, r)
        | none => none
      else if c = 't' then
        match expectLit ['r', 'u', 'e'] rest with
        | some r => some (JsonValue.bool true, r)
        | none => none
      else if c = 'f' then
        match expectLit ['a', 'l', 's', 'e'] rest with
        | some r => some (JsonValue.bool false, r)
        | none => none
      else if c = 'n' then
        match expectLit ['u', 'l', 'l'] rest with
        | some r => some (JsonValue.null, r)
        | none => none
      else if c = '\x7b' then
        match skipWs rest with
        | '\x7d' :: rest2 => some (JsonValue.obj [], rest2)
        | rest2 => parseMembers fuel rest2 []
      else if c = '[' then
        match skipWs rest with
        | ']' :: rest2 => some (JsonValue.arr [], rest2)
        | rest2 => parseElems fuel rest2 []
      else if c = '-' || c.isDigit then
        parseNumber (c :: rest)
      else
        none

/-- Object members after the opening brace (first member not yet
consumed), accumulating fields in order. -/
def parseMembers : Nat → List Char → List (String × JsonValue) →
    Option (JsonValue × List Char)
  | 0, _, _ => none
  | Nat.succ fuel, input, acc =>
    match skipWs input with
    | '"' :: rest =>
      match parseStringBody (fuel + 1) rest with
      | some (key, rest2) =>
        match skipWs rest2 with
        | ':' :: rest3 =>
          match parseValue fuel rest3 with
          | some (v, rest4) =>
            match skipWs rest4 with
            | ',' :: rest5 => parseMembers fuel rest5 (acc ++ [(key, v)])
            | '\x7d' :: rest5 => some (JsonValue.obj (acc ++ [(key, v)]), rest5)
            | _ => none
          | none => none
        | _ => none
      | none => none
    | _ => none

/-- Array elements after the opening bracket (first element not yet
consumed). -/
def parseElems : Nat → List Char → List JsonValue →
    Option (JsonValue × List Char)
  | 0, _, _ => none
  | Nat.succ fuel, input, acc =>
    match parseValue fuel input with
    | some (v, rest) =>
      match skipWs rest with
      | ',' :: rest2 => parseElems fuel rest2 (acc ++ [v])
      | ']' :: rest2 => some (JsonValue.arr (acc ++ [v]), rest2)
      | _ => none
    | none => none

end

/-- Parse a whole string as one JSON value; trailing non-whitespace is
an error, as in `json.Unmarshal`. -/
def goJsonParse (s : String) : Option JsonValue :=
  match parseValue (s.length + 2) s.data with
  | some (v, rest) => if (skipWs rest).isEmpty then some v else none
  | none => none

/-- Last binding of a key in an object, Go's duplicate-key rule. -/
def lookupLast (fields : List (String × JsonValue)) (key : String) :
    Option JsonValue :=
  ((fields.filter (fun kv => kv.1 = key)).getLast?).map (fun kv => kv.2)

/-- Decode one string-typed struct field: absent or null keeps the Go
zero value `""`; a non-string value is an unmarshal error. -/
def decodeStringField : Option JsonValue → Option String
  | none => some ""
  | some (JsonValue.str s) => some s
  | some JsonValue.null => some ""
  | some _ => none

/-- Model of `json.Unmarshal` of one line into `SubfinderJSONOutput`:
`none` models a returned error. -/
def goUnmarshalSubfinder (s : String) : Option SubfinderJSONOutput :=
  match goJsonParse s with
  | some (JsonValue.obj fields) =>
    match decodeStringField (lookupLast fields "host"),
        decodeStringField (lookupLast fields "source"),
        decodeStringField (lookupLast fields "input") with
    | some host, some source, some input => some ⟨host, source, input⟩
    | _, _, _ => none
  | some JsonValue.null => some ⟨"", "", ""⟩
  | _ => none

/-! ## Result parsing (main.go lines 165-188, repeated at 272-296) -/

/-- The body of the per-line loop (main.go lines 168-187): trim the
line; skip it when empty or exactly `"\x7b\x7d"`; otherwise unmarshal,
falling back on parse failure to the whole line as a bare hostname
with the synthetic source `"subfinder"`. -/
def processLine (line : String) : List SubdomainResult :=
  let l := goTrimSpace line
  if l ≠ "" ∧ l ≠ "\x7b\x7d" then
    match goUnmarshalSubfinder l with
    | none => [{ subdomain := l, sources := ["subfinder"], sourceCount := 1 }]
    | some r => [{ subdomain := r.host, sources := [r.source], sourceCount := 1 }]
  else
    []

/-- The whole parse of one engine invocation's captured output
(main.go lines 166-188): trim the buffer, split on newlines, run the
per-line loop. -/
def parseOutput (output : String) : List SubdomainResult :=
  (goSplit (goTrimSpace output) '\n').flatMap processLine

/-! ## Handlers

The runner constructor `runner.NewRunner` and the engine call
`subfinder.EnumerateSingleDomainWithCtx` are external library calls;
the handlers are parameterised over them.  `runnerInit` models
`NewRunner` (error or a usable runner), `engine` models one invocation
for a domain: an error, or the text the engine wrote to the output
buffer.  The HTTP-method check and JSON body decoding that precede the
embedded logic are transport plumbing and are modelled as already
done. -/

/-- Handler `enumerateDomainHandler` (main.go lines 101-199) from the point
the request body is decoded. -/
def enumerateDomainHandler (runnerInit : RunnerOptions → Except String Unit)
    (engine : String → Except String String) (req : EnumerateRequest) :
    HandlerResult :=
  if req.domain = "" then
    .err 400 { success := false, error := "Domain is required" }
  else if isValidDomain req.domain = false then
    .err 400 { success := false, error := "Invalid domain format" }
  else
    let opts := translateOptions req.options
    match runnerInit opts with
    | .error e =>
      .err 500 { success := false,
                 error := "Failed to create subfinder runner: " ++ e }
    | .ok _ =>
      match engine req.domain with
      | .error e =>
        .err 500 { success := false,
                   error := "Failed to enumerate subdomains: " ++ e }
      | .ok output =>
        let results := parseOutput output
        .ok { success := true, results := results, count := results.length }

/-- Body of the batch per-line loop (main.go lines 274-296): identical
filtering and parsing, but appending to the shared accumulator and
incrementing the separate `totalCount` in both append branches. -/
def batchLineStep (acc : List SubdomainResult × Nat) (line : String) :
    List SubdomainResult × Nat :=
  let l := goTrimSpace line
  if l ≠ "" ∧ l ≠ "\x7b\x7d" then
    match goUnmarshalSubfinder l with
    | none =>
      (acc.1 ++ [{ subdomain := l, sources := ["subfinder"], sourceCount := 1 }],
       acc.2 + 1)
    | some r =>
      (acc.1 ++ [{ subdomain := r.host, sources := [r.source], sourceCount := 1 }],
       acc.2 + 1)
  else
    acc

/-- Body of the batch per-domain loop (main.go lines 264-297): a
failing engine invocation is logged and skipped (`continue`); a
successful one has its output split and folded line by line. -/
def batchDomainStep (engine : String → Except String String)
    (acc : List SubdomainResult × Nat) (domain : String) :
    List SubdomainResult × Nat :=
  match engine domain with
  | .error _ => acc
  | .ok output =>
    (goSplit (goTrimSpace output) '\n').foldl batchLineStep acc

/-- Handler `enumerateBatchHandler` (main.go lines 202-308) from the point the
request body is decoded: empty-array check, all-domains validation
(returning at the first invalid domain), runner construction, then the
sequential per-domain loop. -/
def enumerateBatchHandler (runnerInit : RunnerOptions → Except String Unit)
    (engine : String → Except String String) (req : EnumerateRequest) :
    HandlerResult :=
  if req.domains.length = 0 then
    .err 400 { success := false,
               error := "Domains array is required and cannot be empty" }
  else
    match req.domains.find? (fun d => isValidDomain d = false) with
    | some d =>
      .err 400 { success := false, error := "Invalid domain format: " ++ d }
    | none =>
      let opts := translateOptions req.options
      match runnerInit opts with
      | .error e =>
        .err 500 { success := false,
                   error := "Failed to create subfinder runner: " ++ e }
      | .ok _ =>
        let st := req.domains.foldl (batchDomainStep engine) ([], 0)
        .ok { success := true, results := st.1, count := st.2 }

/-! ## The aggregation the specification describes

The design document's Result Aggregator ("insertion-ordered mapping
from subdomain string to its set of contributing sources; first
occurrence determines position; source sets accumulate without
duplicates; source_count derived").  This definition follows the
specification's words, not the source; it exists to be compared with
the parsing above, which has no aggregation step. -/

/-- One discovery record as the specification's RawDiscoveryRecord. -/
structure RawDiscoveryRecord where
  host : String
  source : String
  input : String
  deriving Repr, DecidableEq

/-- Insert one record into the insertion-ordered aggregate, per the
specification's Result Aggregator contract. -/
def specAggregateInsert : List SubdomainResult → String → String →
    List SubdomainResult
  | [], host, source => [{ subdomain := host, sources := [source], sourceCount := 1 }]
  | r :: rest, host, source =>
    if r.subdomain = host then
      let srcs := if r.sources.contains source then r.sources
                  else r.sources ++ [source]
      { subdomain := r.subdomain, sources := srcs, sourceCount := srcs.length } :: rest
    else
      r :: specAggregateInsert rest host source

/-- The specification's `aggregate`: fold records in input order. -/
def specAggregate (records : List RawDiscoveryRecord) : List SubdomainResult :=
  records.foldl (fun acc r => specAggregateInsert acc r.host r.source) []

/-! ## Concrete fixtures used by closed theorems and witnesses -/

/-- Contribution of one domain to a batch run: nothing when its
engine invocation fails, its parsed output otherwise. -/
def batchDomainResults (engine : String → Except String String)
    (domain : String) : List SubdomainResult :=
  match engine domain with
  | .error _ => []
  | .ok output => parseOutput output

/-- Engine output line recording `a.example.com` found by `src1`. -/
def aggLine1 : String :=
  "\x7b\"host\":\"a.example.com\",\"source\":\"src1\",\"input\":\"example.com\"\x7d"

/-- Engine output line recording `b.example.com` found by `src2`. -/
def aggLine2 : String :=
  "\x7b\"host\":\"b.example.com\",\"source\":\"src2\",\"input\":\"example.com\"\x7d"

/-- Engine output line recording `a.example.com` found by `src3`. -/
def aggLine3 : String :=
  "\x7b\"host\":\"a.example.com\",\"source\":\"src3\",\"input\":\"example.com\"\x7d"

/-- The discovery records of the specification's aggregation example:
`a.example.com:src1, b.example.com:src2, a.example.com:src3`. -/
def aggRecords : List RawDiscoveryRecord :=
  [{ host := "a.example.com", source := "src1", input := "example.com" },
   { host := "b.example.com", source := "src2", input := "example.com" },
   { host := "a.example.com", source := "src3", input := "example.com" }]

/-- A deterministic engine double: succeeds for `a.com` with one
structured line, fails for every other domain. -/
def exampleEngine : String → Except String String
  | "a.com" => .ok "\x7b\"host\":\"x.a.com\",\"source\":\"s\",\"input\":\"a.com\"\x7d"
  | _ => .error "enumeration failed"

/-! ## Helper lemmas -/

theorem processLine_singleton (line : String) (r : SubdomainResult)
    (h : r ∈ processLine line) : r.sources.length = 1 ∧ r.sourceCount = 1 := by
  simp only [processLine] at h
  split at h
  · cases hm : goUnmarshalSubfinder (goTrimSpace line) <;> rw [hm] at h <;>
      simp_all
  · simp_all

theorem parseOutput_singleton (output : String) (r : SubdomainResult)
    (h : r ∈ parseOutput output) : r.sources.length = 1 ∧ r.sourceCount = 1 := by
  unfold parseOutput at h
  rw [List.mem_flatMap] at h
  obtain ⟨line, _, hr⟩ := h
  exact processLine_singleton line r hr

theorem batchLineStep_eq (acc : List SubdomainResult × Nat) (line : String) :
    batchLineStep acc line =
      (acc.1 ++ processLine line, acc.2 + (processLine line).length) := by
  simp only [batchLineStep, processLine]
  split
  · cases hm : goUnmarshalSubfinder (goTrimSpace line) <;> simp
  · simp

theorem batchLines_foldl (lines : List String) :
    ∀ acc : List SubdomainResult × Nat,
      lines.foldl batchLineStep acc =
        (acc.1 ++ lines.flatMap processLine,
         acc.2 + (lines.flatMap processLine).length) := by
  induction lines with
  | nil => intro acc; simp
  | cons l ls ih =>
    intro acc
    rw [List.foldl_cons, batchLineStep_eq, ih]
    simp [List.append_assoc, Nat.add_assoc]

theorem batchDomainStep_eq (engine : String → Except String String)
    (acc : List SubdomainResult × Nat) (domain : String) :
    batchDomainStep engine acc domain =
      (acc.1 ++ batchDomainResults engine domain,
       acc.2 + (batchDomainResults engine domain).length) := by
  unfold batchDomainStep batchDomainResults
  cases engine domain <;> simp [batchLines_foldl, parseOutput]

theorem batchDomains_foldl (engine : String → Except String String)
    (domains : List String) :
    ∀ acc : List SubdomainResult × Nat,
      domains.foldl (batchDomainStep engine) acc =
        (acc.1 ++ domains.flatMap (batchDomainResults engine),
         acc.2 + (domains.flatMap (batchDomainResults engine)).length) := by
  induction domains with
  | nil => intro acc; simp
  | cons d ds ih =>
    intro acc
    rw [List.foldl_cons, batchDomainStep_eq, ih]
    simp [List.append_assoc, Nat.add_assoc]

theorem batchHandler_empty (runnerInit : RunnerOptions → Except String Unit)
    (engine : String → Except String String) (req : EnumerateRequest)
    (h : req.domains = []) :
    enumerateBatchHandler runnerInit engine req =
      .err 400 { success := false,
                 error := "Domains array is required and cannot be empty" } := by
  simp [enumerateBatchHandler, h]

theorem batchHandler_invalid (runnerInit : RunnerOptions → Except String Unit)
    (engine : String → Except String String) (req : EnumerateRequest)
    (d₀ : String)
    (hfind : req.domains.find? (fun d => isValidDomain d = false) = some d₀) :
    d₀ ∈ req.domains ∧ isValidDomain d₀ = false ∧
      enumerateBatchHandler runnerInit engine req =
        .err 400 { success := false, error := "Invalid domain format: " ++ d₀ } := by
  have hmem : d₀ ∈ req.domains := List.mem_of_find?_eq_some hfind
  have hinv : isValidDomain d₀ = false := by
    have := List.find?_some hfind
    simpa using this
  refine ⟨hmem, hinv, ?_⟩
  have hlen : ¬ req.domains.length = 0 := by
    intro h0
    rw [List.length_eq_zero] at h0
    rw [h0] at hmem
    cases hmem
  unfold enumerateBatchHandler
  rw [if_neg hlen, hfind]

theorem singleHandler_ok_inv (runnerInit : RunnerOptions → Except String Unit)
    (engine : String → Except String String) (req : EnumerateRequest)
    (resp : EnumerateResponse)
    (h : enumerateDomainHandler runnerInit engine req = .ok resp) :
    ∃ output, engine req.domain = .ok output ∧
      resp = { success := true, results := parseOutput output,
               count := (parseOutput output).length } := by
  simp only [enumerateDomainHandler] at h
  split at h
  · cases h
  split at h
  · cases h
  split at h
  · cases h
  split at h
  · cases h
  · rename_i output heq
    refine ⟨output, heq, ?_⟩
    cases h
    rfl

theorem batchHandler_ok_inv (runnerInit : RunnerOptions → Except String Unit)
    (engine : String → Except String String) (req : EnumerateRequest)
    (resp : EnumerateResponse)
    (h : enumerateBatchHandler runnerInit engine req = .ok resp) :
    resp = { success := true,
             results := req.domains.flatMap (batchDomainResults engine),
             count := (req.domains.flatMap (batchDomainResults engine)).length } := by
  simp only [enumerateBatchHandler] at h
  split at h
  · cases h
  split at h
  · cases h
  split at h
  · cases h
  · rw [batchDomains_foldl] at h
    simp only [List.nil_append, Nat.zero_add] at h
    cases h
    rfl

/-! ## The claims -/

/-- Claim C1.  The specification says aggregation deduplicates by
subdomain with first-occurrence ordering and accumulated source sets,
so that records `a.example.com:src1, b.example.com:src2,
a.example.com:src3` aggregate to two entries.  The code has no
aggregation step at all: the same three records parsed from engine
output yield three separate single-source entries, `a.example.com`
appearing twice, which differs from the aggregate the specification
(and the repository's own README response example, with its
multi-element `sources` list) describes; in batch mode a subdomain
reported under two domains likewise appears twice. -/
theorem c1_no_aggregation_in_code :
    parseOutput (aggLine1 ++ "\n" ++ aggLine2 ++ "\n" ++ aggLine3) =
      [{ subdomain := "a.example.com", sources := ["src1"], sourceCount := 1 },
       { subdomain := "b.example.com", sources := ["src2"], sourceCount := 1 },
       { subdomain := "a.example.com", sources := ["src3"], sourceCount := 1 }] ∧
    specAggregate aggRecords =
      [{ subdomain := "a.example.com", sources := ["src1", "src3"], sourceCount := 2 },
       { subdomain := "b.example.com", sources := ["src2"], sourceCount := 1 }] ∧
    parseOutput (aggLine1 ++ "\n" ++ aggLine2 ++ "\n" ++ aggLine3) ≠
      specAggregate aggRecords ∧
    enumerateBatchHandler (fun _ => .ok ()) (fun _ => .ok aggLine1)
        { domain := "", domains := ["a.com", "b.org"], options := none } =
      .ok { success := true,
            results := [{ subdomain := "a.example.com", sources := ["src1"],
                          sourceCount := 1 },
                        { subdomain := "a.example.com", sources := ["src1"],
                          sourceCount := 1 }],
            count := 2 } := by
  refine ⟨by decide, by decide, by decide, by decide⟩

/-- Claim C2.  In a batch request that passed validation (non-empty
domains, all valid) and whose runner was constructed, the response is
always `success = true`; every domain whose engine invocation failed
contributes nothing, the remaining domains are processed in order, and
results and count come only from the succeeding invocations. -/
theorem c2_batch_partial_failure
    (runnerInit : RunnerOptions → Except String Unit)
    (engine : String → Except String String) (req : EnumerateRequest)
    (hne : req.domains ≠ [])
    (hval : ∀ d ∈ req.domains, isValidDomain d = true)
    (hinit : runnerInit (translateOptions req.options) = .ok ()) :
    enumerateBatchHandler runnerInit engine req =
      .ok { success := true,
            results := req.domains.flatMap (batchDomainResults engine),
            count := (req.domains.flatMap (batchDomainResults engine)).length } := by
  unfold enumerateBatchHandler
  have hlen : ¬ req.domains.length = 0 := by
    simpa [List.length_eq_zero] using hne
  rw [if_neg hlen]
  have hfind : req.domains.find? (fun d => isValidDomain d = false) = none := by
    rw [List.find?_eq_none]
    intro d hd
    simp [hval d hd]
  rw [hfind]
  simp [hinit, batchDomains_foldl]

/-- Witness for C2: the specification's scenario, with the engine
failing for `b.com` and succeeding for `a.com`; the batch returns
success with only the `a.com` result and count 1. -/
theorem c2_batch_partial_failure_witness :
    enumerateBatchHandler (fun _ => .ok ()) exampleEngine
        { domain := "", domains := ["a.com", "b.com"], options := none } =
      .ok { success := true,
            results := ["a.com", "b.com"].flatMap (batchDomainResults exampleEngine),
            count := (["a.com", "b.com"].flatMap
              (batchDomainResults exampleEngine)).length } ∧
    ["a.com", "b.com"].flatMap (batchDomainResults exampleEngine) =
      [{ subdomain := "x.a.com", sources := ["s"], sourceCount := 1 }] :=
  ⟨c2_batch_partial_failure (fun _ => .ok ()) exampleEngine
      { domain := "", domains := ["a.com", "b.com"], options := none }
      (by decide) (by decide) rfl,
   by decide⟩

/-- Claim C3.  Batch validation is all-or-nothing and precedes engine
work: an empty domains sequence, or any domain failing the validator,
is rejected with HTTP 400 before the runner is constructed or the
engine invoked — the outcome is the same error for every runner
constructor and engine, and the error envelope carries no results. -/
theorem c3_batch_validation
    (runnerInit runnerInit' : RunnerOptions → Except String Unit)
    (engine engine' : String → Except String String) (req : EnumerateRequest) :
    (req.domains = [] →
      enumerateBatchHandler runnerInit engine req =
        .err 400 { success := false,
                   error := "Domains array is required and cannot be empty" }) ∧
    (∀ d₀, req.domains.find? (fun d => isValidDomain d = false) = some d₀ →
      d₀ ∈ req.domains ∧ isValidDomain d₀ = false ∧
      enumerateBatchHandler runnerInit engine req =
        .err 400 { success := false, error := "Invalid domain format: " ++ d₀ }) ∧
    ((∃ d ∈ req.domains, isValidDomain d = false) →
      ∃ body : ErrorResponse, body.success = false ∧
        enumerateBatchHandler runnerInit engine req = .err 400 body) ∧
    ((req.domains = [] ∨ ∃ d ∈ req.domains, isValidDomain d = false) →
      enumerateBatchHandler runnerInit engine req =
        enumerateBatchHandler runnerInit' engine' req) := by
  refine ⟨fun h => batchHandler_empty _ _ _ h,
          fun d₀ hfind => batchHandler_invalid _ _ _ _ hfind, ?_, ?_⟩
  · intro hex
    have hsome : (req.domains.find? (fun d => isValidDomain d = false)).isSome := by
      rw [List.find?_isSome]
      obtain ⟨d, hd, hdv⟩ := hex
      exact ⟨d, hd, by simp [hdv]⟩
    obtain ⟨d₀, hfind⟩ := Option.isSome_iff_exists.mp hsome
    obtain ⟨_, _, heq⟩ := batchHandler_invalid runnerInit engine req d₀ hfind
    exact ⟨_, rfl, heq⟩
  · intro hor
    rcases hor with h | hex
    · rw [batchHandler_empty runnerInit engine req h,
          batchHandler_empty runnerInit' engine' req h]
    · have hsome : (req.domains.find? (fun d => isValidDomain d = false)).isSome := by
        rw [List.find?_isSome]
        obtain ⟨d, hd, hdv⟩ := hex
        exact ⟨d, hd, by simp [hdv]⟩
      obtain ⟨d₀, hfind⟩ := Option.isSome_iff_exists.mp hsome
      obtain ⟨_, _, heq⟩ := batchHandler_invalid runnerInit engine req d₀ hfind
      obtain ⟨_, _, heq'⟩ := batchHandler_invalid runnerInit' engine' req d₀ hfind
      rw [heq, heq']

/-- Witness for C3: the specification's example batch
`["a.com", "", "b.com"]` is rejected wholesale — the empty string is
the first domain failing the validator, and the 400 error names it. -/
theorem c3_batch_validation_witness :
    enumerateBatchHandler (fun _ => .ok ()) (fun _ => .ok "anything")
        { domain := "", domains := ["a.com", "", "b.com"], options := none } =
      .err 400 { success := false, error := "Invalid domain format: " ++ "" } :=
  ((c3_batch_validation (fun _ => .ok ()) (fun _ => .ok ())
      (fun _ => .ok "anything") (fun _ => .ok "anything")
      { domain := "", domains := ["a.com", "", "b.com"], options := none }).2.1
    "" (by decide)).2.2

/-- Claim C4.  The domain validator rejects a string exactly when one
of its rejection conditions holds: byte length 0 or above 253, a
literal double dot, a leading or trailing dot, fewer than two labels
after splitting on dots, or a label of byte length 0 or above 63; it
accepts otherwise.  (Purity is inherent: `isValidDomain` is a function
of its argument alone.) -/
theorem c4_domain_validator_iff (d : String) :
    isValidDomain d = false ↔
      (d.utf8ByteSize = 0 ∨ d.utf8ByteSize > 253 ∨
       listContainsSub d.data ['.', '.'] = true ∨
       goStartsWith d "." = true ∨ goEndsWith d "." = true ∨
       (goSplit d '.').length < 2 ∨
       ∃ part ∈ goSplit d '.', part.utf8ByteSize = 0 ∨ part.utf8ByteSize > 63) := by
  unfold isValidDomain
  split_ifs with h1 h2 <;> simp_all [List.any_eq_true]
  · tauto
  · tauto
  · constructor
    · intro h
      by_cases hl : (goSplit d '.').length < 2
      · exact Or.inr (Or.inl hl)
      · exact Or.inr (Or.inr (h (by omega)))
    · intro h hlen
      rcases h with h | h | h
      · omega
      · omega
      · exact h

/-- Claim C5.  Options translation: each numeric field overrides its
default (threads 10, timeout 30, max enumeration time 10) only when
strictly positive; the booleans `all` and `only_recursive` always take
the caller's value; and the engine configuration's JSON output mode is
true for every caller input, options object or not. -/
theorem c5_options_translation :
    (∀ o? : Option APIOptions, (translateOptions o?).json = true) ∧
    (∀ o : APIOptions,
      (translateOptions (some o)).threads =
        (if o.threads > 0 then o.threads else 10) ∧
      (translateOptions (some o)).timeout =
        (if o.timeout > 0 then o.timeout else 30) ∧
      (translateOptions (some o)).maxEnumerationTime =
        (if o.maxEnumerationTime > 0 then o.maxEnumerationTime else 10) ∧
      (translateOptions (some o)).all = o.all ∧
      (translateOptions (some o)).onlyRecursive = o.onlyRecursive) := by
  constructor
  · intro o?
    cases o? with
    | none => rfl
    | some o =>
      simp only [translateOptions, applyOptions, defaultRunnerOptions]
      split_ifs <;> rfl
  · intro o
    simp only [translateOptions, applyOptions, defaultRunnerOptions]
    split_ifs <;> simp_all

/-- Claim C6.  Result normalization: a line whose trim is empty or
exactly the two-character brace sentinel yields no record; a remaining
line that unmarshals yields exactly one record with the decoded host
as subdomain and the decoded source as its single source; a remaining
line that fails to unmarshal yields exactly one fallback record with
the literal (trimmed) line as subdomain and the fixed synthetic source
`subfinder` — the normalizer is a total function, so it never raises.
The closing conjuncts check the specification's round-trip fixture and
its malformed-line example. -/
theorem c6_result_normalizer :
    (∀ line : String, goTrimSpace line = "" ∨ goTrimSpace line = "\x7b\x7d" →
      processLine line = []) ∧
    (∀ (line : String) (r : SubfinderJSONOutput),
      goTrimSpace line ≠ "" → goTrimSpace line ≠ "\x7b\x7d" →
      goUnmarshalSubfinder (goTrimSpace line) = some r →
      processLine line =
        [{ subdomain := r.host, sources := [r.source], sourceCount := 1 }]) ∧
    (∀ line : String,
      goTrimSpace line ≠ "" → goTrimSpace line ≠ "\x7b\x7d" →
      goUnmarshalSubfinder (goTrimSpace line) = none →
      processLine line =
        [{ subdomain := goTrimSpace line, sources := ["subfinder"],
           sourceCount := 1 }]) ∧
    processLine "\x7b\"host\":\"api.example.com\",\"source\":\"crtsh\",\"input\":\"example.com\"\x7d" =
      [{ subdomain := "api.example.com", sources := ["crtsh"], sourceCount := 1 }] ∧
    processLine "not-json-and-not-domain-like" =
      [{ subdomain := "not-json-and-not-domain-like", sources := ["subfinder"],
         sourceCount := 1 }] := by
  refine ⟨?_, ?_, ?_, by decide, by decide⟩
  · intro line h
    rcases h with h | h <;> simp [processLine, h]
  · intro line r h1 h2 hm
    simp [processLine, h1, h2, hm]
  · intro line h1 h2 hm
    simp [processLine, h1, h2, hm]

/-- Witness for C6: a whitespace line is skipped, a padded structured
line yields its decoded record, a plain-text line yields the fallback
record. -/
theorem c6_result_normalizer_witness :
    processLine " " = [] ∧
    processLine " \x7b\"host\":\"h.example.com\",\"source\":\"s1\",\"input\":\"example.com\"\x7d " =
      [{ subdomain := "h.example.com", sources := ["s1"], sourceCount := 1 }] ∧
    processLine " plain-text " =
      [{ subdomain := "plain-text", sources := ["subfinder"], sourceCount := 1 }] :=
  ⟨c6_result_normalizer.1 " " (Or.inl rfl),
   c6_result_normalizer.2.1
     " \x7b\"host\":\"h.example.com\",\"source\":\"s1\",\"input\":\"example.com\"\x7d "
     ⟨"h.example.com", "s1", "example.com"⟩ (by decide) (by decide) (by decide),
   c6_result_normalizer.2.2.1 " plain-text " (by decide) (by decide) (by decide)⟩

/-- Claim C7.  In every success response of either endpoint the count
equals the length of the results: the single-domain handler computes
it as the length, and the batch handler's separately maintained
running counter stays equal to the number of appended results through
the fallback branch and skipped failing domains. -/
theorem c7_count_equals_length
    (runnerInit : RunnerOptions → Except String Unit)
    (engine : String → Except String String) (req : EnumerateRequest)
    (resp : EnumerateResponse) :
    (enumerateDomainHandler runnerInit engine req = .ok resp →
      resp.count = resp.results.length) ∧
    (enumerateBatchHandler runnerInit engine req = .ok resp →
      resp.count = resp.results.length) := by
  constructor
  · intro h
    obtain ⟨output, _, hresp⟩ := singleHandler_ok_inv _ _ _ _ h
    rw [hresp]
  · intro h
    rw [batchHandler_ok_inv _ _ _ _ h]

/-- Witness for C7: both conjuncts instantiated — an empty
single-domain success response, and a batch run over an engine that
fails for one of its two domains. -/
theorem c7_count_equals_length_witness :
    ((⟨true, [], 0⟩ : EnumerateResponse).count =
      (⟨true, [], 0⟩ : EnumerateResponse).results.length) ∧
    ((⟨true, [⟨"x.a.com", ["s"], 1⟩], 1⟩ : EnumerateResponse).count =
      (⟨true, [⟨"x.a.com", ["s"], 1⟩], 1⟩ : EnumerateResponse).results.length) :=
  ⟨(c7_count_equals_length (fun _ => .ok ()) (fun _ => .ok "")
      ⟨"a.com", [], none⟩ ⟨true, [], 0⟩).1 (by decide),
   (c7_count_equals_length (fun _ => .ok ()) exampleEngine
      ⟨"", ["a.com", "b.com"], none⟩ ⟨true, [⟨"x.a.com", ["s"], 1⟩], 1⟩).2
     (by decide)⟩

/-- Claim C8.  A single-domain request whose engine invocation fails
produces the error envelope: success false, the engine's message
appended to the fixed formatting text, HTTP status 500; the error body
type has no results and no count field, and no success response is
produced on this path. -/
theorem c8_single_engine_failure
    (runnerInit : RunnerOptions → Except String Unit)
    (engine : String → Except String String) (req : EnumerateRequest)
    (e : String)
    (h1 : req.domain ≠ "") (h2 : isValidDomain req.domain = true)
    (hinit : runnerInit (translateOptions req.options) = .ok ())
    (heng : engine req.domain = .error e) :
    enumerateDomainHandler runnerInit engine req =
      .err 500 { success := false,
                 error := "Failed to enumerate subdomains: " ++ e } ∧
    ∀ body : EnumerateResponse,
      enumerateDomainHandler runnerInit engine req ≠ .ok body := by
  have main : enumerateDomainHandler runnerInit engine req =
      .err 500 { success := false,
                 error := "Failed to enumerate subdomains: " ++ e } := by
    unfold enumerateDomainHandler
    rw [if_neg h1, if_neg (by simp [h2])]
    simp [hinit, heng]
  exact ⟨main, fun body hb => by rw [main] at hb; cases hb⟩

/-- Witness for C8: a valid domain whose engine invocation fails with
a deadline message yields the 500 error envelope verbatim. -/
theorem c8_single_engine_failure_witness :
    enumerateDomainHandler (fun _ => .ok ())
        (fun _ => .error "context deadline exceeded")
        { domain := "example.com", domains := [], options := none } =
      .err 500 { success := false,
                 error := "Failed to enumerate subdomains: context deadline exceeded" } :=
  (c8_single_engine_failure (fun _ => .ok ())
      (fun _ => .error "context deadline exceeded")
      { domain := "example.com", domains := [], options := none }
      "context deadline exceeded" (by decide) (by decide) rfl rfl).1

/-- Claim C9.  Every `SubdomainResult` in any success response of
either endpoint has exactly one source and `source_count = 1`, no
matter how many engine lines mention the same subdomain, because every
append site builds a one-element sources list. -/
theorem c9_single_source_results
    (runnerInit : RunnerOptions → Except String Unit)
    (engine : String → Except String String) (req : EnumerateRequest)
    (resp : EnumerateResponse)
    (h : enumerateDomainHandler runnerInit engine req = .ok resp ∨
         enumerateBatchHandler runnerInit engine req = .ok resp) :
    ∀ r ∈ resp.results, r.sources.length = 1 ∧ r.sourceCount = 1 := by
  intro r hr
  rcases h with h | h
  · obtain ⟨output, _, hresp⟩ := singleHandler_ok_inv _ _ _ _ h
    rw [hresp] at hr
    exact parseOutput_singleton output r hr
  · rw [batchHandler_ok_inv _ _ _ _ h] at hr
    simp only [List.mem_flatMap] at hr
    obtain ⟨d, _, hrd⟩ := hr
    unfold batchDomainResults at hrd
    revert hrd
    cases engine d with
    | error e => intro hrd; cases hrd
    | ok output => intro hrd; exact parseOutput_singleton output r hrd

/-- Witness for C9: the result emitted for the engine double's one
structured line has a single source and count 1. -/
theorem c9_single_source_results_witness :
    (⟨"x.a.com", ["s"], 1⟩ : SubdomainResult).sources.length = 1 ∧
    (⟨"x.a.com", ["s"], 1⟩ : SubdomainResult).sourceCount = 1 :=
  c9_single_source_results (fun _ => .ok ()) exampleEngine
    ⟨"a.com", [], none⟩ ⟨true, [⟨"x.a.com", ["s"], 1⟩], 1⟩
    (Or.inl (by decide)) ⟨"x.a.com", ["s"], 1⟩ (by decide)

/-- Claim C10.  A line that is valid JSON but lacks a `host` key — the
example object with only `source` and `input`, or an object that is
not the exact two-character sentinel, such as a brace pair with a
space inside — is neither skipped nor sent down the fallback path: it
unmarshals with the zero-value host, yielding a record whose subdomain
is the empty string, included in the results and counted. -/
theorem c10_missing_host_field :
    goUnmarshalSubfinder "\x7b\"source\":\"x\",\"input\":\"y\"\x7d" =
      some { host := "", source := "x", input := "y" } ∧
    processLine "\x7b\"source\":\"x\",\"input\":\"y\"\x7d" =
      [{ subdomain := "", sources := ["x"], sourceCount := 1 }] ∧
    enumerateDomainHandler (fun _ => .ok ())
        (fun _ => .ok "\x7b\"source\":\"x\",\"input\":\"y\"\x7d")
        { domain := "example.com", domains := [], options := none } =
      .ok { success := true,
            results := [{ subdomain := "", sources := ["x"], sourceCount := 1 }],
            count := 1 } ∧
    processLine "\x7b \x7d" =
      [{ subdomain := "", sources := [""], sourceCount := 1 }] := by
  refine ⟨by decide, by decide, by decide, by decide⟩

end SubfinderApi
